import Mathlib

/-!
Verification development for the chatbot-node-server gateway.

The JavaScript sources are embedded shallowly:
* strings are `List Char` (JS strings are finite character sequences);
* `JSON.parse` is the executable `jsonParse` below (strict JSON grammar,
  returning `none` exactly when `JSON.parse` throws);
* JS property access, truthiness and the `||` operator are modelled by
  `getProp`, `truthy` and `jsOr`; an access that throws a `TypeError`
  (base `null`/`undefined`) is an `Except.error`;
* side effects (socket sends, upstream calls, registry mutation) are
  explicit: handlers return lists of `Effect`/`OutMsg` values, and the
  connection registry is threaded as a `WSState` value;
* the random and clock oracles (`Math.random`, `Date.now`) are explicit
  parameters, timestamp fields of envelopes are omitted (no claim
  mentions them).
-/

/-- JSON values as produced by `JSON.parse`.  Number literals keep their
raw lexeme so no floating point is needed (no claim depends on numeric
values, only on parse success and truthiness). -/
inductive Json where
  | jnull
  | jbool (b : Bool)
  | jnum (lit : List Char)
  | jstr (s : List Char)
  | jarr (elems : List Json)
  | jobj (fields : List (List Char × Json))

/-- Shorthand: a Lean string literal as a JS character sequence. -/
def chars (s : String) : List Char := s.toList

/-- Whitespace for the JS `String.prototype.trim`. -/
def jsWhitespaceChar (c : Char) : Bool :=
  c == ' ' || c == '\t' || c == '\n' || c == '\r' || c == '\x0b' || c == '\x0c'

/-- The JS `trim()`: drop whitespace from both ends. -/
def jsTrim (s : List Char) : List Char :=
  ((s.dropWhile jsWhitespaceChar).reverse.dropWhile jsWhitespaceChar).reverse

/-- Core of `String.prototype.split('\n')`: first piece plus the later
pieces.  Packaging the first piece separately keeps the result list
provably non-empty by construction. -/
def splitLinesCore : List Char → List Char × List (List Char)
  | [] => ([], [])
  | c :: cs =>
    let r := splitLinesCore cs
    if c = '\n' then ([], r.1 :: r.2) else (c :: r.1, r.2)

/-- The JS `buffer.split('\n')` (n separators give n+1 pieces, empties
included). -/
def splitLines (s : List Char) : List (List Char) :=
  (splitLinesCore s).1 :: (splitLinesCore s).2

/-- Whitespace skipped by `JSON.parse` between tokens. -/
def skipWs (s : List Char) : List Char :=
  s.dropWhile (fun c => c == ' ' || c == '\t' || c == '\n' || c == '\r')

/-- Value of one hexadecimal digit, for `\uXXXX` string escapes. -/
def hexVal (c : Char) : Option Nat :=
  if '0' ≤ c ∧ c ≤ '9' then some (c.toNat - '0'.toNat)
  else if 'a' ≤ c ∧ c ≤ 'f' then some (c.toNat - 'a'.toNat + 10)
  else if 'A' ≤ c ∧ c ≤ 'F' then some (c.toNat - 'A'.toNat + 10)
  else none

/-- Body of a JSON string literal (after the opening quote): returns the
decoded characters and the input remaining after the closing quote. -/
def parseStringBody : Nat → List Char → Option (List Char × List Char)
  | 0, _ => none
  | _ + 1, [] => none
  | fuel + 1, c :: cs =>
    if c = '"' then some ([], cs)
    else if c = '\\' then
      match cs with
      | [] => none
      | e :: cs' =>
        if e = '"' ∨ e = '\\' ∨ e = '/' then
          match parseStringBody fuel cs' with
          | some (s, r) => some (e :: s, r)
          | none => none
        else if e = 'b' then
          match parseStringBody fuel cs' with
          | some (s, r) => some ('\x08' :: s, r)
          | none => none
        else if e = 'f' then
          match parseStringBody fuel cs' with
          | some (s, r) => some ('\x0c' :: s, r)
          | none => none
        else if e = 'n' then
          match parseStringBody fuel cs' with
          | some (s, r) => some ('\n' :: s, r)
          | none => none
        else if e = 'r' then
          match parseStringBody fuel cs' with
          | some (s, r) => some ('\r' :: s, r)
          | none => none
        else if e = 't' then
          match parseStringBody fuel cs' with
          | some (s, r) => some ('\t' :: s, r)
          | none => none
        else if e = 'u' then
          match cs' with
          | h1 :: h2 :: h3 :: h4 :: cs'' =>
            match hexVal h1, hexVal h2, hexVal h3, hexVal h4 with
            | some a, some b, some c3, some d =>
              match parseStringBody fuel cs'' with
              | some (s, r) =>
                some (Char.ofNat (((a * 16 + b) * 16 + c3) * 16 + d) :: s, r)
              | none => none
            | _, _, _, _ => none
          | _ => none
        else none
    else if c.toNat < 32 then none
    else
      match parseStringBody fuel cs with
      | some (s, r) => some (c :: s, r)
      | none => none

def isDigitChar (c : Char) : Bool := '0' ≤ c && c ≤ '9'

/-- A JSON number literal (strict grammar): returns the lexeme and the
rest of the input. -/
def parseNumberLit (s : List Char) : Option (List Char × List Char) :=
  let signRes : List Char × List Char :=
    match s with
    | '-' :: t => (['-'], t)
    | _ => ([], s)
  let intRes : Option (List Char × List Char) :=
    match signRes.2 with
    | '0' :: t => some (['0'], t)
    | c :: t =>
      if isDigitChar c then some (c :: t.takeWhile isDigitChar, t.dropWhile isDigitChar)
      else none
    | [] => none
  match intRes with
  | none => none
  | some (ip, s2) =>
    let fracRes : Option (List Char × List Char) :=
      match s2 with
      | '.' :: t =>
        let ds := t.takeWhile isDigitChar
        if ds = [] then none else some ('.' :: ds, t.dropWhile isDigitChar)
      | _ => some ([], s2)
    match fracRes with
    | none => none
    | some (fp, s3) =>
      let expRes : Option (List Char × List Char) :=
        match s3 with
        | e :: t =>
          if e = 'e' ∨ e = 'E' then
            let tailRes : List Char × List Char :=
              match t with
              | '+' :: t' => (['+'], t')
              | '-' :: t' => (['-'], t')
              | _ => ([], t)
            let ds := tailRes.2.takeWhile isDigitChar
            if ds = [] then none
            else some (e :: tailRes.1 ++ ds, tailRes.2.dropWhile isDigitChar)
          else some ([], s3)
        | [] => some ([], s3)
      match expRes with
      | none => none
      | some (ep, s4) => some (signRes.1 ++ ip ++ fp ++ ep, s4)

mutual

/-- One JSON value (fuelled recursive-descent, mirroring `JSON.parse`). -/
def parseValue : Nat → List Char → Option (Json × List Char)
  | 0, _ => none
  | fuel + 1, s =>
    match skipWs s with
    | [] => none
    | c :: rest =>
      if c = '\x7b' then parseObjectRest fuel rest
      else if c = '[' then parseArrayRest fuel rest
      else if c = '"' then
        match parseStringBody (rest.length + 1) rest with
        | some (str, r) => some (.jstr str, r)
        | none => none
      else if c = 't' then
        match rest with
        | 'r' :: 'u' :: 'e' :: r => some (.jbool true, r)
        | _ => none
      else if c = 'f' then
        match rest with
        | 'a' :: 'l' :: 's' :: 'e' :: r => some (.jbool false, r)
        | _ => none
      else if c = 'n' then
        match rest with
        | 'u' :: 'l' :: 'l' :: r => some (.jnull, r)
        | _ => none
      else
        match parseNumberLit (c :: rest) with
        | some (lit, r) => some (.jnum lit, r)
        | none => none

/-- Input just after an opening brace. -/
def parseObjectRest : Nat → List Char → Option (Json × List Char)
  | 0, _ => none
  | fuel + 1, s =>
    match skipWs s with
    | '\x7d' :: r => some (.jobj [], r)
    | _ => parseMembers fuel s []

/-- Members of a non-empty JSON object. -/
def parseMembers : Nat → List Char → List (List Char × Json) →
    Option (Json × List Char)
  | 0, _, _ => none
  | fuel + 1, s, acc =>
    match skipWs s with
    | '"' :: r =>
      match parseStringBody (r.length + 1) r with
      | none => none
      | some (key, r2) =>
        match skipWs r2 with
        | ':' :: r3 =>
          match parseValue fuel r3 with
          | none => none
          | some (v, r4) =>
            match skipWs r4 with
            | ',' :: r5 => parseMembers fuel r5 (acc ++ [(key, v)])
            | '\x7d' :: r5 => some (.jobj (acc ++ [(key, v)]), r5)
            | _ => none
        | _ => none
    | _ => none

/-- Input just after an opening bracket. -/
def parseArrayRest : Nat → List Char → Option (Json × List Char)
  | 0, _ => none
  | fuel + 1, s =>
    match skipWs s with
    | ']' :: r => some (.jarr [], r)
    | _ => parseElems fuel s []

/-- Elements of a non-empty JSON array. -/
def parseElems : Nat → List Char → List Json → Option (Json × List Char)
  | 0, _, _ => none
  | fuel + 1, s, acc =>
    match parseValue fuel s with
    | none => none
    | some (v, r) =>
      match skipWs r with
      | ',' :: r2 => parseElems fuel r2 (acc ++ [v])
      | ']' :: r2 => some (.jarr (acc ++ [v]), r2)
      | _ => none

end

/-- `JSON.parse`: whole-input parse; `none` exactly when it throws.
`2 * length + 4` fuel suffices because every fuelled call either consumes
input or alternates with one that does. -/
def jsonParse (s : List Char) : Option Json :=
  match parseValue (2 * s.length + 4) s with
  | some (v, rest) => if skipWs rest = [] then some v else none
  | none => none

/-! ## JS value semantics used by the handlers -/

/-- Last-binding lookup in a JSON object (duplicate keys in `JSON.parse`
resolve to the last occurrence, which is what plain property access
sees). -/
def objGet (fields : List (List Char × Json)) (key : List Char) : Option Json :=
  (fields.reverse.find? (fun p => p.1 == key)).map (fun p => p.2)

/-- Is the mantissa of a JSON number literal zero (`0`, `-0`, `0.0`,
`0e7` are the falsy numbers)? -/
def numIsZero (lit : List Char) : Bool :=
  let noSign := match lit with
    | '-' :: t => t
    | _ => lit
  (noSign.takeWhile (fun c => !(c == 'e') && !(c == 'E'))).all
    (fun c => c == '0' || c == '.')

/-- JS truthiness of a defined value. -/
def truthy : Json → Bool
  | .jnull => false
  | .jbool b => b
  | .jnum lit => !numIsZero lit
  | .jstr s => !s.isEmpty
  | .jarr _ => true
  | .jobj _ => true

/-- JS truthiness where `none` is `undefined`. -/
def truthyO : Option Json → Bool
  | none => false
  | some v => truthy v

/-- JS `a || b` on values (`none` = `undefined`): first operand if
truthy, else the second. -/
def jsOr (a b : Option Json) : Option Json :=
  match a with
  | some v => if truthy v then some v else b
  | none => b

/-- JS property access `base.key`; `Except.error` is the `TypeError`
thrown when the base is `null` or `undefined`; `Option.none` in the
result is `undefined`. -/
def getProp : Option Json → List Char → Except Unit (Option Json)
  | none, _ => .error ()
  | some .jnull, _ => .error ()
  | some (.jobj fields), k => .ok (objGet fields k)
  | some _, _ => .ok none

/-- JS index access `base[i]`; same throwing discipline as `getProp`. -/
def getIndex : Option Json → Nat → Except Unit (Option Json)
  | none, _ => .error ()
  | some .jnull, _ => .error ()
  | some (.jarr xs), i => .ok (xs.get? i)
  | some (.jstr s), i =>
    .ok (if i < s.length then some (.jstr ((s.drop i).take 1)) else none)
  | some (.jobj fields), i => .ok (objGet fields (Nat.toDigits 10 i))
  | some _, _ => .ok none

/-- Property access on a plain (non-null) object, as used where a
`TypeError` is impossible; non-objects give `undefined`. -/
def propPlain (v : Json) (k : List Char) : Option Json :=
  match v with
  | .jobj fields => objGet fields k
  | _ => none

/-! ## Outbound envelopes and effects -/

/-- Outbound envelopes sent over the socket (the `type` tags of
`sendMessage`/`sendError` payloads; ISO timestamps omitted). -/
inductive OutMsg where
  | connectionMsg
  | typing
  | pong
  | streamStart
  | streamToken (tok : Json)
  | streamEnd
  | aiResponse (resp : List Char)
  | escalationResponse
  | feedbackConfirmation
  | errorMsg (msg : String)

/-- Observable effects of the handlers besides state updates: envelope
sends, transport closes, upstream calls, analytics calls, session
appends, and upgrade rejection. -/
inductive Effect where
  | send (m : OutMsg)
  | closeTransport (clientId : List Char)
  | rejectUpgrade
  | backendCall (query : List Char)
  | analyticsStoreQuestion (query : List Char)
  | analyticsUpdateAIResponse
  | analyticsUpdateFeedback (messageId : Json) (feedbackType : List Char)
  | sessionAppend (m : Json)

def isStreamTokenMsg : OutMsg → Bool
  | .streamToken _ => true
  | _ => false

def isStreamStartMsg : OutMsg → Bool
  | .streamStart => true
  | _ => false

def isStreamEndMsg : OutMsg → Bool
  | .streamEnd => true
  | _ => false

def isErrorOut : OutMsg → Bool
  | .errorMsg _ => true
  | _ => false

def isSendError : Effect → Bool
  | .send (.errorMsg _) => true
  | _ => false

def isBackendCall : Effect → Bool
  | .backendCall _ => true
  | _ => false

def isCloseEffect : Effect → Bool
  | .closeTransport _ => true
  | _ => false

/-! ## Streaming relay (`messageHandler` variant with `streamFromFastAPI`) -/

/-- The SSE tag `data: ` checked by `line.startsWith('data: ')`. -/
def sseDataMark : List Char := chars "data: "

/-- The guarded token extraction
`if (parsed.choices && parsed.choices[0].delta) { const delta = ...;
if (delta.content) sendMessage(stream-token) }`; an `Except.error` is a
`TypeError` escaping to the surrounding `catch (parseError)`. -/
def deltaTokens (parsed : Json) : Except Unit (List OutMsg) :=
  match getProp (some parsed) (chars "choices") with
  | .error _ => .error ()
  | .ok choicesV =>
    match choicesV with
    | none => .ok []
    | some cv =>
      if truthy cv then
        match getIndex (some cv) 0 with
        | .error _ => .error ()
        | .ok c0 =>
          match getProp c0 (chars "delta") with
          | .error _ => .error ()
          | .ok deltaV =>
            match deltaV with
            | none => .ok []
            | some dv =>
              if truthy dv then
                match getProp (some dv) (chars "content") with
                | .error _ => .error ()
                | .ok contentV =>
                  match contentV with
                  | none => .ok []
                  | some cb =>
                    if truthy cb then .ok [.streamToken cb] else .ok []
              else .ok []
      else .ok []

/-- `processStreamLine` of the streaming `MessageHandler`: trim, skip
empty lines, strip the `data: ` prefix when present, recognise the
`[DONE]` sentinel, try `JSON.parse` with the delta extraction, and fall
back to emitting the raw payload (or the whole unprefixed line) as a
literal token. -/
def processStreamLine (rawLine : List Char) : List OutMsg :=
  let line := jsTrim rawLine
  if line = [] then []
  else if sseDataMark.isPrefixOf line then
    let data := line.drop 6
    if data = chars "[DONE]" then []
    else
      match jsonParse data with
      | some parsed =>
        match deltaTokens parsed with
        | .ok msgs => msgs
        | .error _ => [.streamToken (.jstr data)]
      | none => [.streamToken (.jstr data)]
  else [.streamToken (.jstr line)]

/-- The `response.data.on('data', ...)` handler body: append the chunk
to the buffer, split on newline, keep the final (possibly incomplete)
piece as the new buffer, process every complete line. -/
def onData (buffer chunk : List Char) : List OutMsg × List Char :=
  let pieces := splitLines (buffer ++ chunk)
  (((pieces.dropLast).map processStreamLine).flatten, pieces.getLastD [])

/-- One chunk arrival folded over the accumulated output and buffer. -/
def chunkStep (acc : List OutMsg × List Char) (chunk : List Char) :
    List OutMsg × List Char :=
  let r := onData acc.2 chunk
  (acc.1 ++ r.1, r.2)

/-- All chunk arrivals of one stream, starting from an empty buffer. -/
def runChunks (chunks : List (List Char)) : List OutMsg × List Char :=
  chunks.foldl chunkStep ([], [])

/-- The `response.data.on('end', ...)` flush:
`if (buffer.trim()) processStreamLine(buffer)`. -/
def flushBuffer (buffer : List Char) : List OutMsg :=
  if jsTrim buffer = [] then [] else processStreamLine buffer

/-- The `error.code` discrimination of the two axios `catch` blocks.
`httpResponse` is an error with an HTTP error response attached
(`error.response` set, `error.code` none of the tested strings);
`otherFailure` is any other failure. -/
inductive AxiosError where
  | econnrefused
  | timeout
  | enotfound
  | httpResponse (detail : Option String) (message : Option String)
  | otherFailure
deriving DecidableEq, Repr

/-- The `catch` of `streamFromFastAPI`. -/
def streamCatchMessage : AxiosError → String
  | .econnrefused => "AI service is currently unavailable"
  | .timeout => "Request timeout - please try again"
  | _ => "Failed to connect to AI service"

/-- Behaviour of the upstream streaming transport for one request, per
Node stream semantics: either the request itself fails (the awaited
`axios(...)` throws, before any handler is installed), or the response
streams its data chunks and then emits exactly one of `end` (normal
completion) or `error` (transport error; no `end` follows a stream
`error`). -/
inductive StreamOutcome where
  | okStream (chunks : List (List Char))
  | errStream (chunks : List (List Char))
  | requestFailure (e : AxiosError)

/-- `streamFromFastAPI`: envelopes sent to the client for one streaming
chat request, in order.  On request failure only the mapped error
envelope is sent (the `stream-start` send is after the `await`); on
completion the residual buffer is flushed and `stream-end` sent; on a
stream error only the stream error envelope follows the tokens. -/
def streamFromFastAPI : StreamOutcome → List OutMsg
  | .requestFailure e => [.errorMsg (streamCatchMessage e)]
  | .okStream chunks =>
    let r := runChunks chunks
    .streamStart :: (r.1 ++ flushBuffer r.2 ++ [.streamEnd])
  | .errStream chunks =>
    let r := runChunks chunks
    .streamStart :: (r.1 ++ [.errorMsg "Stream error occurred"])

/-! ## Unary chat handler (`messageHandler` variant with `callPythonAIAPI`) -/

namespace MessageHandler

/-- `message.content || message.message || message.query`. -/
def extractQuery (message : Json) : Option Json :=
  jsOr (propPlain message (chars "content"))
    (jsOr (propPlain message (chars "message")) (propPlain message (chars "query")))

/-- `validateMessage`: the result object `{valid, error?}` / `{valid, query}`. -/
inductive ValidationResult where
  | invalid (error : String)
  | valid (query : List Char)
deriving DecidableEq, Repr

/-- `validateMessage(message)`: presence, string-ness, non-emptiness
after trim, and the (untrimmed) 2000-character bound. -/
def validateMessage (message : Json) : ValidationResult :=
  if truthy message then
    match extractQuery message with
    | some (.jstr q) =>
      if q = [] then .invalid "Message content must be a string"
      else if jsTrim q = [] then .invalid "Message content cannot be empty"
      else if 2000 < q.length then
        .invalid "Message content cannot exceed 2000 characters"
      else .valid (jsTrim q)
    | _ => .invalid "Message content must be a string"
  else .invalid "Message is required"

/-- JS `a || b` on optional strings (an empty string is falsy). -/
def jsOrStr (a : Option String) (b : String) : String :=
  match a with
  | some s => if s = "" then b else s
  | none => b

/-- The `catch` of `callPythonAIAPI`: `ECONNREFUSED`, then
`TIMEOUT || ENOTFOUND`, then `error.response`
(`AI service error: ${detail || message || 'AI service error'}`),
then the generic fallback. -/
def unaryAIErrorMessage : AxiosError → String
  | .econnrefused => "AI service is currently unavailable. Please try again later."
  | .timeout => "Request timeout - please try again"
  | .enotfound => "Request timeout - please try again"
  | .httpResponse detail message =>
    "AI service error: " ++ jsOrStr detail (jsOrStr message "AI service error")
  | .otherFailure => "Failed to connect to AI service"

/-- Result of the awaited `axios` POST in `callPythonAIAPI`. -/
inductive UnaryOutcome where
  | okResp (data : Json)
  | failure (e : AxiosError)

/-- The shape check
`if (!response.data || typeof response.data.response !== 'string') throw`:
`some s` is the validated response string. -/
def validUpstream (d : Json) : Option (List Char) :=
  if truthy d then
    match d with
    | .jobj fields =>
      match objGet fields (chars "response") with
      | some (.jstr s) => some s
      | _ => none
    | _ => none
  else none

/-- `callPythonAIAPI`: the POST itself, then on success the
`ai-response` envelope, analytics update and session append (the throw
on an invalid shape lands in the same `catch`, whose `error` has no
`code` and no `response`, hence the generic message); on failure the
mapped error envelope. -/
def callPythonAIAPI (query : List Char) (outcome : UnaryOutcome)
    (hasAnalytics : Bool) : List Effect :=
  .backendCall query ::
    (match outcome with
     | .okResp d =>
       match validUpstream d with
       | some s =>
         [.send (.aiResponse s)] ++
           (if hasAnalytics then [.analyticsUpdateAIResponse] else []) ++
           [.sessionAppend (.jstr s)]
       | none => [.send (.errorMsg "Failed to connect to AI service")]
     | .failure e => [.send (.errorMsg (unaryAIErrorMessage e))])

/-- `handleChatMessage` of the unary handler: session guard, query
extraction with the inline emptiness/length checks (a `TypeError` from
`query.trim()` on a truthy non-string is caught by the surrounding
`catch`, which sends the generic failure envelope), then the session
append, optional analytics store, and the upstream call. -/
def handleChatMessage (message : Json) (sessionExists hasAnalytics : Bool)
    (outcome : UnaryOutcome) : List Effect :=
  if sessionExists then
    match extractQuery message with
    | none => [.send (.errorMsg "Message content is required")]
    | some v =>
      if truthy v then
        match v with
        | .jstr q =>
          if jsTrim q = [] then [.send (.errorMsg "Message content is required")]
          else if 2000 < q.length then
            [.send (.errorMsg "Message too long. Maximum 2000 characters allowed.")]
          else
            [.sessionAppend (.jstr q)] ++
              (if hasAnalytics then [.analyticsStoreQuestion q] else []) ++
              callPythonAIAPI (jsTrim q) outcome hasAnalytics
        | _ => [.send (.errorMsg "Failed to get AI response")]
      else [.send (.errorMsg "Message content is required")]
  else [.send (.errorMsg "Failed to get AI response")]

/-- The `handleChatMessage` wrapper of the websocket server: run
`validateMessage` first, reply with its error envelope on failure,
otherwise send the `typing` envelope and delegate. -/
def wsHandleChatMessage (message : Json) (sessionExists hasAnalytics : Bool)
    (outcome : UnaryOutcome) : List Effect :=
  match validateMessage message with
  | .invalid e => [.send (.errorMsg e)]
  | .valid _ =>
    .send .typing :: handleChatMessage message sessionExists hasAnalytics outcome

end MessageHandler

/-! ## WebSocket server: registry, handshake, router, cleanup -/

namespace WebSocketServer

/-- The identity decoded by `authService.verifyToken`. -/
structure Identity where
  userId : List Char
  username : List Char
deriving DecidableEq, Repr

/-- One entry of `this.clients` (timestamps omitted). -/
structure ClientConn where
  user : Identity
  wsOpen : Bool
deriving DecidableEq, Repr

/-- One entry of `this.sessions`. -/
structure Session where
  userId : List Char
  username : List Char
  messages : List Json

/-- The registry: `this.clients` and `this.sessions`, both JS `Map`s
keyed by clientId, in insertion order. -/
structure WSState where
  clients : List (List Char × ClientConn)
  sessions : List (List Char × Session)

/-- JS `Map.prototype.set`: replace in place if the key exists, else
append. -/
def setEntry {α : Type} (m : List (List Char × α)) (k : List Char) (v : α) :
    List (List Char × α) :=
  if m.any (fun p => p.1 == k) then
    m.map (fun p => if p.1 == k then (k, v) else p)
  else m ++ [(k, v)]

/-- JS `Map.prototype.delete`. -/
def delEntry {α : Type} (m : List (List Char × α)) (k : List Char) :
    List (List Char × α) :=
  m.filter (fun p => !(p.1 == k))

/-- JS `Map.prototype.get`. -/
def lookupEntry {α : Type} (m : List (List Char × α)) (k : List Char) :
    Option α :=
  (m.find? (fun p => p.1 == k)).map (fun p => p.2)

/-- `generateClientId`: `'client_' + rand + '_' + now`, with the
`Math.random().toString(36).substr(2, 9)` draw and the decimal
`Date.now()` rendering supplied as oracles. -/
def generateClientId (rand now : List Char) : List Char :=
  chars "client_" ++ rand ++ ('_' :: now)

/-- JS `str.replace(pat, '')`: remove the first occurrence of `pat`. -/
def replaceFirst (pat : List Char) : List Char → List Char
  | [] => []
  | c :: cs =>
    if pat.isPrefixOf (c :: cs) then (c :: cs).drop pat.length
    else c :: replaceFirst pat cs

/-- JS `a || b` on optional strings (an empty string is falsy). -/
def jsOrChars (a b : Option (List Char)) : Option (List Char) :=
  match a with
  | some s => if s = [] then b else some s
  | none => b

/-- `verifyClient`:
`query.token || req.headers.authorization?.replace('Bearer ', '')`,
rejecting when no token results or when `authService.verifyToken`
throws (`verifyToken` oracle returns `none`). -/
def verifyClient (queryToken authHeader : Option (List Char))
    (verifyToken : List Char → Option Identity) : Option Identity :=
  match jsOrChars queryToken (authHeader.map (replaceFirst (chars "Bearer "))) with
  | none => none
  | some t => if t = [] then none else verifyToken t

/-- The fresh session stored at connection time. -/
def freshSession (u : Identity) : Session :=
  { userId := u.userId, username := u.username, messages := [] }

/-- Handshake: `verifyClient` plus the `connection` event handler.  A
rejected upgrade leaves the registry untouched; an accepted one stores
the connection and a fresh session under the generated clientId and
sends the `connection` welcome envelope. -/
def handleUpgrade (st : WSState) (queryToken authHeader : Option (List Char))
    (verifyToken : List Char → Option Identity) (rand now : List Char) :
    WSState × List Effect :=
  match verifyClient queryToken authHeader verifyToken with
  | none => (st, [.rejectUpgrade])
  | some user =>
    let cid := generateClientId rand now
    ({ clients := setEntry st.clients cid { user := user, wsOpen := true },
       sessions := setEntry st.sessions cid (freshSession user) },
     [.send .connectionMsg])

/-- `handleFeedbackMessage` (session guard, analytics guard, required
fields, allowed feedbackType values, then the analytics update and the
confirmation envelope). -/
def handleFeedbackMessage (message : Json) (sessionExists hasAnalytics : Bool) :
    List Effect :=
  if sessionExists then
    if hasAnalytics then
      match propPlain message (chars "messageId"),
          propPlain message (chars "feedbackType") with
      | some mid, some ftv =>
        if truthy mid && truthy ftv then
          match ftv with
          | .jstr ft =>
            if ft = chars "positive" ∨ ft = chars "negative" then
              [.analyticsUpdateFeedback mid ft, .send .feedbackConfirmation]
            else
              [.send (.errorMsg "feedbackType must be either \"positive\" or \"negative\"")]
          | _ =>
            [.send (.errorMsg "feedbackType must be either \"positive\" or \"negative\"")]
        else [.send (.errorMsg "messageId and feedbackType are required")]
      | _, _ => [.send (.errorMsg "messageId and feedbackType are required")]
    else [.send (.errorMsg "Analytics service not available")]
  else [.send (.errorMsg "Session not found")]

/-- `handleHumanEscalation`: append the system note, send the fixed
acknowledgement, append it too. -/
def handleHumanEscalation (sessionExists : Bool) : List Effect :=
  if sessionExists then
    [.sessionAppend (.jstr (chars "Human escalation requested")),
     .send .escalationResponse,
     .sessionAppend (.jstr (chars "A human agent will contact you soon."))]
  else [.send (.errorMsg "Session not found")]

/-- Append an inbound message to the stored session of `cid`. -/
def pushSession (st : WSState) (cid : List Char) (m : Json) : WSState :=
  match lookupEntry st.sessions cid with
  | none => st
  | some s =>
    { st with
      sessions := setEntry st.sessions cid { s with messages := s.messages ++ [m] } }

/-- `handleMessage`: guard on client and session, store the inbound
message, then the `switch (message.type)` dispatch.  The result is
`Except.error` when evaluating `message.type` throws (frame `null`),
which the router's `catch` turns into the format error envelope. -/
def handleMessage (st : WSState) (cid : List Char) (m : Json)
    (hasAnalytics : Bool) (outcome : MessageHandler.UnaryOutcome) :
    WSState × Except Unit (List Effect) :=
  match lookupEntry st.clients cid, lookupEntry st.sessions cid with
  | some _, some _ =>
    let st' := pushSession st cid m
    match getProp (some m) (chars "type") with
    | .error _ => (st', .error ())
    | .ok t =>
      match t with
      | some (.jstr tv) =>
        if tv = chars "chat" then
          (st', .ok (MessageHandler.wsHandleChatMessage m true hasAnalytics outcome))
        else if tv = chars "feedback" then
          (st', .ok (handleFeedbackMessage m true hasAnalytics))
        else if tv = chars "human-escalation" then
          (st', .ok (handleHumanEscalation true))
        else if tv = chars "ping" then (st', .ok [.send .pong])
        else (st', .ok [.send (.errorMsg "Unknown message type")])
      | _ => (st', .ok [.send (.errorMsg "Unknown message type")])
  | _, _ => (st, .ok [])

/-- The `ws.on('message', ...)` handler: `JSON.parse` the frame inside
`try`, dispatch, and on any escaping throw send the
`Invalid message format` error envelope; the connection is never
closed here. -/
def onRawFrame (st : WSState) (cid : List Char) (raw : List Char)
    (hasAnalytics : Bool) (outcome : MessageHandler.UnaryOutcome) :
    WSState × List Effect :=
  match jsonParse raw with
  | none => (st, [.send (.errorMsg "Invalid message format")])
  | some m =>
    match handleMessage st cid m hasAnalytics outcome with
    | (st', .ok effs) => (st', effs)
    | (st', .error _) => (st', [.send (.errorMsg "Invalid message format")])

/-- `cleanupClient`: remove the connection entry (the session is left
resident by this variant). -/
def cleanupClient (st : WSState) (cid : List Char) : WSState :=
  { st with clients := delEntry st.clients cid }

/-- `cleanup`: close every still-open transport, then clear both maps. -/
def cleanup (st : WSState) : WSState × List Effect :=
  ({ clients := [], sessions := [] },
   st.clients.filterMap
     (fun p => if p.2.wsOpen then some (.closeTransport p.1) else none))

end WebSocketServer

/-! ## Claim-side definitions -/

/-- The rejection predicate of claim C3: the extracted query is missing,
not a string, empty after trimming, or longer than 2000 characters after
trimming. -/
def queryRejected (message : Json) : Bool :=
  match MessageHandler.extractQuery message with
  | some (.jstr q) =>
    decide (jsTrim q = []) || decide (2000 < (jsTrim q).length)
  | _ => true

/-- A chat message whose `content` is 2001 characters long. -/
def msg2001 : Json := .jobj [(chars "content", .jstr (List.replicate 2001 'a'))]

/-- A concrete verified identity for witnesses. -/
def demoUser : WebSocketServer.Identity :=
  { userId := chars "u1", username := chars "alice" }

/-- A concrete authenticator accepting exactly the token `tok`. -/
def demoVerify : List Char → Option WebSocketServer.Identity :=
  fun t => if t = chars "tok" then some demoUser else none

/-- A registry holding one open connection `c1` with its session. -/
def demoState : WebSocketServer.WSState :=
  { clients := [(chars "c1", { user := demoUser, wsOpen := true })],
    sessions := [(chars "c1", WebSocketServer.freshSession demoUser)] }

/-- Registered clientIds, in registry order. -/
def clientKeys (st : WebSocketServer.WSState) : List (List Char) :=
  st.clients.map (fun p => p.1)

/-! ## Line splitting: supporting lemmas -/

theorem splitLines_nil : splitLines [] = [[]] := rfl

theorem splitLines_ne_nil (s : List Char) : splitLines s ≠ [] := by
  simp [splitLines]

theorem splitLines_cons_nl (s : List Char) :
    splitLines ('\n' :: s) = [] :: splitLines s := by
  simp [splitLines, splitLinesCore]

theorem splitLines_cons_ch {c : Char} (hc : c ≠ '\n') (s : List Char) :
    splitLines (c :: s) =
      (c :: (splitLines s).headD []) :: (splitLines s).tail := by
  simp [splitLines, splitLinesCore, hc]

theorem getLastD_cons_cons {α : Type} (x y : α) (l : List α) (d : α) :
    List.getLastD (x :: y :: l) d = List.getLastD (y :: l) d := by
  simp [List.getLastD_eq_getLast?, List.getLast?_cons_cons]

/-- Splitting a concatenation: the pieces of `a` except its last, then
the pieces of the last piece of `a` glued onto `b`. -/
theorem splitLines_append (a b : List Char) :
    splitLines (a ++ b) =
      (splitLines a).dropLast ++ splitLines ((splitLines a).getLastD [] ++ b) := by
  induction a with
  | nil => simp [splitLines_nil]
  | cons c a ih =>
    by_cases hc : c = '\n'
    · subst hc
      rw [List.cons_append, splitLines_cons_nl, splitLines_cons_nl, ih]
      rcases hsp : splitLines a with _ | ⟨p, ps⟩
      · exact absurd hsp (splitLines_ne_nil a)
      · simp [List.dropLast_cons₂, getLastD_cons_cons]
    · rw [List.cons_append, splitLines_cons_ch hc, splitLines_cons_ch hc, ih]
      rcases hsp : splitLines a with _ | ⟨p, ps⟩
      · exact absurd hsp (splitLines_ne_nil a)
      · rcases ps with _ | ⟨q, qs⟩
        · simp only [List.dropLast_single, List.nil_append,
            List.getLastD_eq_getLast?, List.getLast?_singleton, Option.getD_some,
            List.headD_cons, List.tail_cons]
          rw [List.cons_append, splitLines_cons_ch hc]
        · simp only [List.dropLast_cons₂, getLastD_cons_cons, List.cons_append,
            List.headD_cons, List.tail_cons]

theorem nl_not_mem_splitLinesCore (s : List Char) :
    '\n' ∉ (splitLinesCore s).1 ∧ ∀ l ∈ (splitLinesCore s).2, '\n' ∉ l := by
  induction s with
  | nil => simp [splitLinesCore]
  | cons c cs ih =>
    by_cases hc : c = '\n'
    · subst hc
      simp only [splitLinesCore, if_pos rfl]
      refine ⟨by simp, ?_⟩
      intro l hl
      rcases List.mem_cons.mp hl with h | h
      · exact h ▸ ih.1
      · exact ih.2 l h
    · simp only [splitLinesCore, if_neg hc]
      refine ⟨?_, ih.2⟩
      intro hmem
      rcases List.mem_cons.mp hmem with h | h
      · exact hc h.symm
      · exact ih.1 h

theorem nl_not_mem_piece {s l : List Char} (h : l ∈ splitLines s) : '\n' ∉ l := by
  rcases List.mem_cons.mp h with h' | h'
  · exact h' ▸ (nl_not_mem_splitLinesCore s).1
  · exact (nl_not_mem_splitLinesCore s).2 l h'

theorem nl_not_mem_buffer (s : List Char) : '\n' ∉ (splitLines s).getLastD [] := by
  rcases List.mem_cons.mp (List.getLastD_mem_cons (splitLines s) []) with h | h
  · rw [h]; simp
  · exact nl_not_mem_piece h

theorem splitLines_no_nl {s : List Char} (h : '\n' ∉ s) : splitLines s = [s] := by
  induction s with
  | nil => rfl
  | cons c cs ih =>
    have hc : c ≠ '\n' := fun hh => h (hh ▸ List.mem_cons_self c cs)
    have ihs := ih (fun hm => h (List.mem_cons_of_mem c hm))
    rw [splitLines_cons_ch hc, ihs]
    rfl

theorem dropLast_append_splitLines (ys : List (List Char)) (x : List Char) :
    (ys ++ splitLines x).dropLast = ys ++ (splitLines x).dropLast :=
  List.dropLast_append_of_ne_nil _ (splitLines_ne_nil _)

theorem getLastD_append_splitLines (ys : List (List Char)) (x d : List Char) :
    (ys ++ splitLines x).getLastD d = (splitLines x).getLastD d := by
  rw [List.getLastD_eq_getLast?,
    List.getLast?_append_of_ne_nil _ (splitLines_ne_nil x),
    ← List.getLastD_eq_getLast?]

/-- Invariant of the `data`-event fold: starting from any
newline-free buffer, the emitted envelopes are exactly those of the
complete lines of the concatenation, and the buffer is its trailing
piece. -/
theorem foldl_chunkStep (chunks : List (List Char)) :
    ∀ acc buf, '\n' ∉ buf →
      chunks.foldl chunkStep (acc, buf) =
        (acc ++ (((splitLines (buf ++ chunks.flatten)).dropLast).map
            processStreamLine).flatten,
         (splitLines (buf ++ chunks.flatten)).getLastD []) := by
  induction chunks with
  | nil =>
    intro acc buf h
    simp [splitLines_no_nl h]
  | cons c cs ih =>
    intro acc buf h
    rw [List.foldl_cons]
    have hstep : chunkStep (acc, buf) c =
        (acc ++ (((splitLines (buf ++ c)).dropLast).map processStreamLine).flatten,
         (splitLines (buf ++ c)).getLastD []) := rfl
    rw [hstep, ih _ _ (nl_not_mem_buffer (buf ++ c))]
    have hsp : splitLines (buf ++ (c :: cs).flatten) =
        (splitLines (buf ++ c)).dropLast ++
          splitLines ((splitLines (buf ++ c)).getLastD [] ++ cs.flatten) := by
      rw [List.flatten_cons, ← List.append_assoc]
      exact splitLines_append (buf ++ c) cs.flatten
    rw [hsp, dropLast_append_splitLines, getLastD_append_splitLines,
      List.map_append, List.flatten_append, List.append_assoc]

/-- `runChunks` processes exactly the complete lines of the whole byte
stream, in order, and retains the trailing partial line. -/
theorem runChunks_eq (chunks : List (List Char)) :
    runChunks chunks =
      ((((splitLines chunks.flatten).dropLast).map processStreamLine).flatten,
       (splitLines chunks.flatten).getLastD []) := by
  have h := foldl_chunkStep chunks [] [] (by simp)
  simpa [runChunks] using h

/-! ## Claim C1: chunk buffering of the streaming relay -/

/-- C1.  For every sequence of chunk writes, the relay appends each
chunk to the buffer, splits on newline, processes exactly the complete
lines of the concatenation (each once, in order), and retains the
trailing partial line in the buffer; in particular the `data:` line
split across two writes yields exactly one stream-token `Hi`. -/
theorem stream_chunk_buffering :
    (∀ chunks : List (List Char),
      runChunks chunks =
        ((((splitLines chunks.flatten).dropLast).map processStreamLine).flatten,
         (splitLines chunks.flatten).getLastD [])) ∧
    runChunks [chars "data: \x7b\"cho",
        chars "ices\":[\x7b\"delta\":\x7b\"content\":\"Hi\"\x7d\x7d]\x7d\n"] =
      ([.streamToken (.jstr (chars "Hi"))], []) :=
  ⟨runChunks_eq, by rfl⟩

/-! ## Stream-line shape lemmas -/

theorem deltaTokens_shape (parsed : Json) :
    deltaTokens parsed = .error () ∨ deltaTokens parsed = .ok [] ∨
      ∃ t, deltaTokens parsed = .ok [.streamToken t] := by
  unfold deltaTokens
  repeat' (first
    | (left; rfl)
    | (right; left; rfl)
    | (right; right; exact ⟨_, rfl⟩)
    | split)

theorem processStreamLine_shape (l : List Char) :
    processStreamLine l = [] ∨ ∃ t, processStreamLine l = [OutMsg.streamToken t] := by
  unfold processStreamLine
  dsimp only
  split
  · left; rfl
  · split
    · split
      · left; rfl
      · split
        · rename_i parsed heq
          split
          · rename_i msgs hdt
            rcases deltaTokens_shape parsed with h | h | ⟨t, h⟩
            · rw [h] at hdt; cases hdt
            · rw [h] at hdt; left; exact (Except.ok.injEq _ _).mp hdt.symm
            · rw [h] at hdt
              right; exact ⟨t, ((Except.ok.injEq _ _).mp hdt.symm)⟩
          · right; exact ⟨_, rfl⟩
        · right; exact ⟨_, rfl⟩
    · right; exact ⟨_, rfl⟩

theorem countP_processStreamLine {q : OutMsg → Bool}
    (hq : ∀ t, q (.streamToken t) = false) (l : List Char) :
    List.countP q (processStreamLine l) = 0 := by
  rcases processStreamLine_shape l with h | ⟨t, h⟩ <;>
    simp [h, List.countP_cons, hq]

theorem countP_flatten_processStreamLine {q : OutMsg → Bool}
    (hq : ∀ t, q (.streamToken t) = false) (ps : List (List Char)) :
    List.countP q ((ps.map processStreamLine).flatten) = 0 := by
  induction ps with
  | nil => rfl
  | cons p ps ih =>
    rw [List.map_cons, List.flatten_cons, List.countP_append, ih,
      countP_processStreamLine hq]

theorem flushBuffer_eq_processStreamLine (b : List Char) :
    flushBuffer b = processStreamLine b := by
  unfold flushBuffer
  split
  · rename_i h
    unfold processStreamLine
    rw [h]
    rfl
  · rfl

/-! ## Claim C4: stream-start and stream-end bracketing -/

/-- C4 (amended).  Whenever the upstream response begins, exactly one
`stream-start` is emitted first; on transport completion the residual
buffered line is processed as a final line and then exactly one
`stream-end` closes the output; on a transport error the stream error
envelope ends the output and no `stream-end` is emitted. -/
theorem stream_bracket_policy (chunks : List (List Char)) :
    streamFromFastAPI (.okStream chunks) =
      .streamStart ::
        (((splitLines chunks.flatten).dropLast.map processStreamLine).flatten ++
          processStreamLine ((splitLines chunks.flatten).getLastD []) ++
          [.streamEnd]) ∧
    List.countP isStreamStartMsg (streamFromFastAPI (.okStream chunks)) = 1 ∧
    List.countP isStreamEndMsg (streamFromFastAPI (.okStream chunks)) = 1 ∧
    (streamFromFastAPI (.okStream chunks)).getLast? = some .streamEnd ∧
    streamFromFastAPI (.errStream chunks) =
      .streamStart ::
        (((splitLines chunks.flatten).dropLast.map processStreamLine).flatten ++
          [.errorMsg "Stream error occurred"]) ∧
    List.countP isStreamStartMsg (streamFromFastAPI (.errStream chunks)) = 1 ∧
    List.countP isStreamEndMsg (streamFromFastAPI (.errStream chunks)) = 0 := by
  have hok : streamFromFastAPI (.okStream chunks) =
      .streamStart ::
        (((splitLines chunks.flatten).dropLast.map processStreamLine).flatten ++
          processStreamLine ((splitLines chunks.flatten).getLastD []) ++
          [.streamEnd]) := by
    show .streamStart :: ((runChunks chunks).1 ++ flushBuffer (runChunks chunks).2 ++
        [.streamEnd]) = _
    rw [runChunks_eq, flushBuffer_eq_processStreamLine]
  have herr : streamFromFastAPI (.errStream chunks) =
      .streamStart ::
        (((splitLines chunks.flatten).dropLast.map processStreamLine).flatten ++
          [.errorMsg "Stream error occurred"]) := by
    show .streamStart :: ((runChunks chunks).1 ++ [.errorMsg "Stream error occurred"]) = _
    rw [runChunks_eq]
  refine ⟨hok, ?_, ?_, ?_, herr, ?_, ?_⟩
  · rw [hok, List.countP_cons, List.countP_append, List.countP_append,
      countP_flatten_processStreamLine (fun t => rfl),
      countP_processStreamLine (fun t => rfl)]
    rfl
  · rw [hok, List.countP_cons, List.countP_append, List.countP_append,
      countP_flatten_processStreamLine (fun t => rfl),
      countP_processStreamLine (fun t => rfl)]
    rfl
  · rw [hok]
    rw [show OutMsg.streamStart ::
        (((splitLines chunks.flatten).dropLast.map processStreamLine).flatten ++
          processStreamLine ((splitLines chunks.flatten).getLastD []) ++
          [OutMsg.streamEnd]) =
        (OutMsg.streamStart ::
          (((splitLines chunks.flatten).dropLast.map processStreamLine).flatten ++
            processStreamLine ((splitLines chunks.flatten).getLastD []))) ++
          [OutMsg.streamEnd] by simp]
    exact List.getLast?_concat _
  · rw [herr, List.countP_cons, List.countP_append,
      countP_flatten_processStreamLine (fun t => rfl)]
    rfl
  · rw [herr, List.countP_cons, List.countP_append,
      countP_flatten_processStreamLine (fun t => rfl)]
    rfl

/-- C4 counterexample.  A streaming chat interaction whose upstream
request fails (connection refused) emits zero `stream-start` and zero
`stream-end` envelopes, refuting the claim that every streaming
interaction emits exactly one of each. -/
theorem stream_bracket_claim_cx :
    streamFromFastAPI (.requestFailure .econnrefused) =
      [.errorMsg "AI service is currently unavailable"] ∧
    List.countP isStreamStartMsg
      (streamFromFastAPI (.requestFailure .econnrefused)) = 0 ∧
    List.countP isStreamEndMsg
      (streamFromFastAPI (.requestFailure .econnrefused)) = 0 :=
  ⟨rfl, rfl, rfl⟩

/-! ## Claim C10: bracket policy for failed request attempts -/

/-- C10.  If the streaming upstream request itself fails before any
response begins, the relay sends only the mapped error envelope: no
`stream-start`, no `stream-end`, and no token is ever emitted for that
chat message. -/
theorem request_phase_failure_policy (e : AxiosError) :
    streamFromFastAPI (.requestFailure e) = [.errorMsg (streamCatchMessage e)] ∧
    List.countP isStreamStartMsg (streamFromFastAPI (.requestFailure e)) = 0 ∧
    List.countP isStreamEndMsg (streamFromFastAPI (.requestFailure e)) = 0 ∧
    List.countP isStreamTokenMsg (streamFromFastAPI (.requestFailure e)) = 0 :=
  ⟨rfl, rfl, rfl, rfl⟩

/-! ## Claim C5: upstream failure mapping -/

/-- C5 (amended).  Connection-refused maps to the unavailable-service
envelope and timeout to the distinct timeout envelope in both modes; in
unary mode `ENOTFOUND` is also mapped to the timeout envelope and an
upstream HTTP error response maps to an `AI service error: ...`
envelope; every other failure maps to the generic failure envelope; the
failure paths send exactly the error envelope and never close the
client transport. -/
theorem upstream_failure_mapping :
    (streamCatchMessage .econnrefused = "AI service is currently unavailable" ∧
     streamCatchMessage .timeout = "Request timeout - please try again" ∧
     streamCatchMessage .enotfound = "Failed to connect to AI service" ∧
     (∀ d m, streamCatchMessage (.httpResponse d m) =
       "Failed to connect to AI service") ∧
     streamCatchMessage .otherFailure = "Failed to connect to AI service") ∧
    (MessageHandler.unaryAIErrorMessage .econnrefused =
       "AI service is currently unavailable. Please try again later." ∧
     MessageHandler.unaryAIErrorMessage .timeout =
       "Request timeout - please try again" ∧
     MessageHandler.unaryAIErrorMessage .enotfound =
       "Request timeout - please try again" ∧
     (∀ d m, MessageHandler.unaryAIErrorMessage (.httpResponse d m) =
       "AI service error: " ++
         MessageHandler.jsOrStr d (MessageHandler.jsOrStr m "AI service error")) ∧
     MessageHandler.unaryAIErrorMessage .otherFailure =
       "Failed to connect to AI service") ∧
    (∀ e, streamFromFastAPI (.requestFailure e) =
       [.errorMsg (streamCatchMessage e)]) ∧
    (∀ q e ha, MessageHandler.callPythonAIAPI q (.failure e) ha =
       [.backendCall q, .send (.errorMsg (MessageHandler.unaryAIErrorMessage e))]) ∧
    (∀ q e ha,
       (MessageHandler.callPythonAIAPI q (.failure e) ha).countP isCloseEffect = 0) :=
  ⟨⟨rfl, rfl, rfl, fun _ _ => rfl, rfl⟩,
   ⟨rfl, rfl, rfl, fun _ _ => rfl, rfl⟩,
   fun _ => rfl, fun _ _ _ => rfl, fun _ _ _ => rfl⟩

/-- C5 counterexample.  `ENOTFOUND` is a transport failure that is
neither connection-refused nor a timeout, yet the unary handler maps it
to the timeout envelope instead of the generic failure envelope. -/
theorem upstream_failure_mapping_cx :
    MessageHandler.unaryAIErrorMessage .enotfound =
      "Request timeout - please try again" ∧
    MessageHandler.unaryAIErrorMessage .enotfound ≠
      "Failed to connect to AI service" :=
  ⟨rfl, by decide⟩

/-! ## Claim C2: processing of one complete stream line -/

theorem isPrefixOf_append_self (a b : List Char) :
    a.isPrefixOf (a ++ b) = true := by
  induction a with
  | nil => simp [List.isPrefixOf]
  | cons x a ih => simp [List.isPrefixOf, ih]

theorem deltaTokens_content {o fs dfs : List (List Char × Json)} {cr : List Json}
    {s : List Char}
    (hch : objGet o (chars "choices") = some (.jarr (.jobj fs :: cr)))
    (hd : objGet fs (chars "delta") = some (.jobj dfs))
    (hc : objGet dfs (chars "content") = some (.jstr s)) (hs : s ≠ []) :
    deltaTokens (.jobj o) = .ok [.streamToken (.jstr s)] := by
  unfold deltaTokens
  simp only [getProp, getIndex, hch, hd, hc]
  cases s with
  | nil => exact absurd rfl hs
  | cons a t => simp [truthy, List.get?, hd, hc]

/-- Reduction of `processStreamLine` on a line whose trimmed form
carries the `data: ` tag. -/
theorem processStreamLine_data {l p : List Char}
    (hp : jsTrim l = sseDataMark ++ p) :
    processStreamLine l =
      (if p = chars "[DONE]" then []
       else
         match jsonParse p with
         | some parsed =>
           match deltaTokens parsed with
           | .ok msgs => msgs
           | .error _ => [.streamToken (.jstr p)]
         | none => [.streamToken (.jstr p)]) := by
  unfold processStreamLine
  dsimp only
  rw [hp]
  rw [if_neg (by simp [sseDataMark, chars])]
  rw [if_pos (isPrefixOf_append_self sseDataMark p)]
  have hdrop : (sseDataMark ++ p).drop 6 = p := List.drop_left sseDataMark p
  rw [hdrop]

/-- C2 (amended).  For a complete line whose trimmed form starts with
`data: `: payload `[DONE]` emits nothing; a payload that fails
`JSON.parse` is emitted as one literal token; a payload decoding to an
object with a non-empty string at `choices[0].delta.content` emits
exactly one token carrying that content.  A non-empty line without the
`data: ` tag is emitted as-is as one literal token. -/
theorem stream_line_processing (l : List Char) :
    (∀ p, jsTrim l = sseDataMark ++ p →
       ((p = chars "[DONE]" → processStreamLine l = []) ∧
        (jsonParse p = none → p ≠ chars "[DONE]" →
          processStreamLine l = [.streamToken (.jstr p)]) ∧
        (∀ o fs dfs cr s, jsonParse p = some (.jobj o) →
          objGet o (chars "choices") = some (.jarr (.jobj fs :: cr)) →
          objGet fs (chars "delta") = some (.jobj dfs) →
          objGet dfs (chars "content") = some (.jstr s) → s ≠ [] →
          processStreamLine l = [.streamToken (.jstr s)]))) ∧
    (sseDataMark.isPrefixOf (jsTrim l) = false → jsTrim l ≠ [] →
       processStreamLine l = [.streamToken (.jstr (jsTrim l))]) := by
  constructor
  · intro p hp
    refine ⟨?_, ?_, ?_⟩
    · intro hdone
      rw [processStreamLine_data hp, if_pos hdone]
    · intro hparse hdone
      rw [processStreamLine_data hp, if_neg hdone, hparse]
    · intro o fs dfs cr s hparse hch hd hc hs
      have hdone : ¬ p = chars "[DONE]" := by
        intro h
        rw [h] at hparse
        have hnone : jsonParse (chars "[DONE]") = none := by rfl
        rw [hnone] at hparse
        cases hparse
      rw [processStreamLine_data hp, if_neg hdone, hparse]
      dsimp only
      rw [deltaTokens_content hch hd hc hs]
  · intro hpref hne
    unfold processStreamLine
    dsimp only
    rw [if_neg hne, if_neg (by rw [hpref]; exact Bool.false_ne_true)]

/-- C2 counterexample.  The complete line `[DONE]` carries no `data: `
tag; after the (vacuous) prefix strip its payload equals `[DONE]`, so
the claim demands no stream-token, yet the code emits it as one literal
token. -/
theorem stream_line_processing_cx :
    processStreamLine (chars "[DONE]") =
      [.streamToken (.jstr (chars "[DONE]"))] := rfl

/-- C2 witness: the amended theorem applied to the canonical
token-delta line. -/
theorem stream_line_processing_witness :
    processStreamLine
        (chars "data: \x7b\"choices\":[\x7b\"delta\":\x7b\"content\":\"Hi\"\x7d\x7d]\x7d") =
      [.streamToken (.jstr (chars "Hi"))] :=
  ((stream_line_processing
      (chars "data: \x7b\"choices\":[\x7b\"delta\":\x7b\"content\":\"Hi\"\x7d\x7d]\x7d")).1
    (chars "\x7b\"choices\":[\x7b\"delta\":\x7b\"content\":\"Hi\"\x7d\x7d]\x7d")
    (by rfl)).2.2
    [(chars "choices",
      Json.jarr [Json.jobj [(chars "delta",
        Json.jobj [(chars "content", Json.jstr (chars "Hi"))])]])]
    [(chars "delta", Json.jobj [(chars "content", Json.jstr (chars "Hi"))])]
    [(chars "content", Json.jstr (chars "Hi"))]
    [] (chars "Hi") (by rfl) (by rfl) (by rfl) (by rfl) (by decide)

/-! ## Claim C3: query validation before the backend call -/

theorem jsTrim_length_le (s : List Char) : (jsTrim s).length ≤ s.length := by
  unfold jsTrim
  rw [List.length_reverse]
  refine le_trans (List.dropWhile_sublist _).length_le ?_
  rw [List.length_reverse]
  exact (List.dropWhile_sublist _).length_le

theorem truthy_jstr {q : List Char} (h : q ≠ []) : truthy (.jstr q) = true := by
  cases q with
  | nil => exact absurd rfl h
  | cons a t => rfl

theorem validateMessage_valid {m : Json} {qq : List Char}
    (h : MessageHandler.validateMessage m = .valid qq) :
    ∃ q, MessageHandler.extractQuery m = some (.jstr q) ∧ q ≠ [] ∧
      jsTrim q ≠ [] ∧ q.length ≤ 2000 ∧ qq = jsTrim q := by
  unfold MessageHandler.validateMessage at h
  split at h
  · split at h
    · rename_i q heq
      split at h
      · exact absurd h (by simp)
      · split at h
        · exact absurd h (by simp)
        · split at h
          · exact absurd h (by simp)
          · rename_i hq htne hlen
            cases h
            exact ⟨q, heq, hq, htne, Nat.le_of_not_lt hlen, rfl⟩
    · exact absurd h (by simp)
  · exact absurd h (by simp)

theorem callPythonAIAPI_backend {q q' : List Char}
    {oc : MessageHandler.UnaryOutcome} {ha : Bool}
    (h : Effect.backendCall q' ∈ MessageHandler.callPythonAIAPI q oc ha) :
    q' = q := by
  unfold MessageHandler.callPythonAIAPI at h
  rcases List.mem_cons.mp h with h | h
  · injection h
  · cases oc with
    | okResp d =>
      cases ha <;>
        rcases hvu : MessageHandler.validUpstream d with _ | s <;>
          simp [hvu] at h
    | failure e => simp at h

theorem handleChatMessage_backend {m : Json} {se ha : Bool}
    {oc : MessageHandler.UnaryOutcome} {q' : List Char}
    (h : Effect.backendCall q' ∈ MessageHandler.handleChatMessage m se ha oc) :
    ∃ q, MessageHandler.extractQuery m = some (.jstr q) ∧ jsTrim q ≠ [] ∧
      q.length ≤ 2000 ∧ q' = jsTrim q := by
  unfold MessageHandler.handleChatMessage at h
  cases se with
  | false => simp at h
  | true =>
    rw [if_pos rfl] at h
    split at h
    · simp at h
    · rename_i v heq
      split at h
      · split at h
        · rename_i q htruthy
          split at h
          · simp at h
          · split at h
            · simp at h
            · rename_i htne hlen
              rcases List.mem_cons.mp h with h | h
              · cases h
              · rcases List.mem_append.mp h with h | h
                · cases ha <;> simp at h
                · exact ⟨q, heq, htne, Nat.le_of_not_lt hlen,
                    callPythonAIAPI_backend h⟩
        · simp at h
      · simp at h

/-- C3.  A chat message whose query is missing, not a string, empty
after trimming, or longer than 2000 characters after trimming is
answered with an error envelope and causes zero backend calls; every
query that reaches the backend is non-empty and at most 2000 characters
after trimming. -/
theorem chat_query_validation (m : Json) (se ha : Bool)
    (oc : MessageHandler.UnaryOutcome) :
    (queryRejected m = true →
      (MessageHandler.wsHandleChatMessage m se ha oc).any isSendError = true ∧
      (MessageHandler.wsHandleChatMessage m se ha oc).countP isBackendCall = 0) ∧
    (∀ q, Effect.backendCall q ∈ MessageHandler.wsHandleChatMessage m se ha oc →
      q ≠ [] ∧ q.length ≤ 2000) := by
  rcases hv : MessageHandler.validateMessage m with e | qq
  · refine ⟨fun _ => ⟨?_, ?_⟩, fun q hq => ?_⟩
    · simp [MessageHandler.wsHandleChatMessage, hv, isSendError]
    · simp [MessageHandler.wsHandleChatMessage, hv, List.countP_cons, isBackendCall]
    · simp [MessageHandler.wsHandleChatMessage, hv] at hq
  · obtain ⟨q0, heq, hqne, htne, hlen, rfl⟩ := validateMessage_valid hv
    constructor
    · intro hrej
      exfalso
      have hfalse : queryRejected m = false := by
        unfold queryRejected
        rw [heq]
        simp only [Bool.or_eq_false_iff, decide_eq_false_iff_not]
        exact ⟨htne, by have := le_trans (jsTrim_length_le q0) hlen; omega⟩
      rw [hfalse] at hrej
      cases hrej
    · intro q hq
      have hmem : Effect.backendCall q ∈
          MessageHandler.handleChatMessage m se ha oc := by
        unfold MessageHandler.wsHandleChatMessage at hq
        rw [hv] at hq
        rcases List.mem_cons.mp hq with h | h
        · cases h
        · exact h
      obtain ⟨q1, heq1, htne1, hlen1, rfl⟩ := handleChatMessage_backend hmem
      exact ⟨htne1, le_trans (jsTrim_length_le q1) hlen1⟩

theorem dropWhile_ws_replicate_a (n : Nat) :
    (List.replicate n 'a').dropWhile jsWhitespaceChar = List.replicate n 'a' := by
  cases n with
  | zero => rfl
  | succ k =>
    rw [List.replicate_succ, List.dropWhile_cons]
    simp [jsWhitespaceChar]

theorem jsTrim_replicate_a (n : Nat) :
    jsTrim (List.replicate n 'a') = List.replicate n 'a' := by
  unfold jsTrim
  rw [dropWhile_ws_replicate_a, List.reverse_replicate, dropWhile_ws_replicate_a,
    List.reverse_replicate]

theorem queryRejected_msg2001 : queryRejected msg2001 = true := by
  have h1 : MessageHandler.extractQuery msg2001 =
      some (.jstr (List.replicate 2001 'a')) := rfl
  unfold queryRejected
  rw [h1]
  dsimp only
  rw [jsTrim_replicate_a, List.length_replicate]
  rfl

/-- C3 witness: the 2001-character chat message is rejected with an
error envelope and zero backend calls. -/
theorem chat_query_validation_witness :
    (MessageHandler.wsHandleChatMessage msg2001 true true
        (.failure .otherFailure)).any isSendError = true ∧
    (MessageHandler.wsHandleChatMessage msg2001 true true
        (.failure .otherFailure)).countP isBackendCall = 0 :=
  (chat_query_validation msg2001 true true (.failure .otherFailure)).1
    queryRejected_msg2001

/-! ## Claim C6: malformed inbound frames -/

/-- C6.  Every inbound frame that fails to parse as JSON is answered
with exactly one `Invalid message format` error envelope, the registry
state is untouched and the connection is left open; a subsequent valid
frame on the same connection (here a `ping` after a malformed frame) is
processed normally. -/
theorem router_malformed_frame :
    (∀ st cid raw ha oc, jsonParse raw = none →
      WebSocketServer.onRawFrame st cid raw ha oc =
        (st, [.send (.errorMsg "Invalid message format")])) ∧
    (WebSocketServer.onRawFrame demoState (chars "c1") (chars "\x7bnot json")
        true (.failure .otherFailure) =
      (demoState, [.send (.errorMsg "Invalid message format")])) ∧
    ((WebSocketServer.onRawFrame
        (WebSocketServer.onRawFrame demoState (chars "c1") (chars "\x7bnot json")
          true (.failure .otherFailure)).1
        (chars "c1") (chars "\x7b\"type\":\"ping\"\x7d") true
        (.failure .otherFailure)).2 = [.send .pong]) := by
  refine ⟨?_, by rfl, by rfl⟩
  intro st cid raw ha oc h
  unfold WebSocketServer.onRawFrame
  rw [h]

/-- C6 witness: the general part applied to a concrete malformed
frame. -/
theorem router_malformed_frame_witness :
    WebSocketServer.onRawFrame demoState (chars "c1") (chars "hello]")
      true (.failure .otherFailure) =
      (demoState, [.send (.errorMsg "Invalid message format")]) :=
  router_malformed_frame.1 demoState (chars "c1") (chars "hello]") true
    (.failure .otherFailure) (by rfl)

/-! ## Claim C7: handshake admission -/

/-- C7 (amended).  A missing or rejected credential rejects the upgrade
with no Connection and no Session created; a verified credential
allocates a clientId from the random-plus-timestamp generator, stores
the Connection and a fresh empty Session under it (replacing any
existing entry with the same id) and sends the `connection`
envelope. -/
theorem handshake_admission (st : WebSocketServer.WSState)
    (qt ah : Option (List Char))
    (vf : List Char → Option WebSocketServer.Identity) (rand now : List Char) :
    (WebSocketServer.verifyClient qt ah vf = none →
      WebSocketServer.handleUpgrade st qt ah vf rand now = (st, [.rejectUpgrade])) ∧
    (∀ vf2, WebSocketServer.verifyClient none none vf2 = none) ∧
    (∀ vf2, WebSocketServer.verifyClient (some []) none vf2 = none) ∧
    (∀ u, WebSocketServer.verifyClient qt ah vf = some u →
      WebSocketServer.handleUpgrade st qt ah vf rand now =
        ({ clients := WebSocketServer.setEntry st.clients
             (WebSocketServer.generateClientId rand now)
             { user := u, wsOpen := true },
           sessions := WebSocketServer.setEntry st.sessions
             (WebSocketServer.generateClientId rand now)
             (WebSocketServer.freshSession u) },
         [.send .connectionMsg])) := by
  refine ⟨?_, fun vf2 => rfl, fun vf2 => rfl, ?_⟩
  · intro h
    unfold WebSocketServer.handleUpgrade
    rw [h]
  · intro u h
    unfold WebSocketServer.handleUpgrade
    rw [h]

/-- C7 witness: a successful handshake against the empty registry. -/
theorem handshake_admission_witness :
    WebSocketServer.handleUpgrade ⟨[], []⟩ (some (chars "tok")) none demoVerify
        (chars "abcdefghi") (chars "17") =
      ({ clients := WebSocketServer.setEntry []
           (WebSocketServer.generateClientId (chars "abcdefghi") (chars "17"))
           { user := demoUser, wsOpen := true },
         sessions := WebSocketServer.setEntry []
           (WebSocketServer.generateClientId (chars "abcdefghi") (chars "17"))
           (WebSocketServer.freshSession demoUser) },
       [.send .connectionMsg]) :=
  (handshake_admission ⟨[], []⟩ (some (chars "tok")) none demoVerify
    (chars "abcdefghi") (chars "17")).2.2.2 demoUser (by rfl)

/-- C7 counterexample.  Two successful handshakes whose random and
timestamp draws coincide are assigned the same clientId, so the second
admission overwrites the first: the registry holds one connection, not
two, refuting process-uniqueness of the allocated id. -/
theorem handshake_unique_id_cx :
    (WebSocketServer.handleUpgrade
        (WebSocketServer.handleUpgrade ⟨[], []⟩ (some (chars "tok")) none
          demoVerify (chars "abcdefghi") (chars "17")).1
        (some (chars "tok")) none demoVerify (chars "abcdefghi")
        (chars "17")).1.clients.length = 1 := by rfl

/-! ## Claim C8: clientId uniqueness -/

theorem setEntry_keysNodup {α : Type} (m : List (List Char × α)) (k : List Char)
    (v : α) (h : (m.map (fun p => p.1)).Nodup) :
    ((WebSocketServer.setEntry m k v).map (fun p => p.1)).Nodup := by
  unfold WebSocketServer.setEntry
  split
  · rw [List.map_map]
    rw [List.map_congr_left (g := fun p => p.1) ?_]
    · exact h
    · intro p _
      by_cases hb : p.1 == k
      · simp only [Function.comp_apply, hb, if_pos]
        exact (eq_of_beq hb).symm
      · simp only [Function.comp_apply, hb, if_neg]
        rfl
  · rename_i hany
    have hk : k ∉ m.map (fun p => p.1) := by
      intro hm
      rcases List.mem_map.mp hm with ⟨p, hp, hpk⟩
      exact hany (List.any_eq_true.mpr ⟨p, hp, beq_iff_eq.mpr hpk⟩)
    rw [List.map_append]
    exact List.nodup_append.mpr
      ⟨h, List.nodup_singleton k, List.disjoint_singleton.mpr hk⟩

theorem sep_append_inj {c : Char} :
    ∀ (a1 a2 b1 b2 : List Char), c ∉ a1 → c ∉ a2 →
      a1 ++ c :: b1 = a2 ++ c :: b2 → a1 = a2 ∧ b1 = b2 := by
  intro a1
  induction a1 with
  | nil =>
    intro a2 b1 b2 _ h2 heq
    cases a2 with
    | nil =>
      rw [List.nil_append, List.nil_append] at heq
      injection heq with _ hb
      exact ⟨rfl, hb⟩
    | cons x a2 =>
      rw [List.nil_append, List.cons_append] at heq
      injection heq with hx _
      exact absurd (List.mem_cons.mpr (Or.inl hx)) h2
  | cons x a1 ih =>
    intro a2 b1 b2 h1 h2 heq
    cases a2 with
    | nil =>
      rw [List.nil_append, List.cons_append] at heq
      injection heq with hx _
      exact absurd (List.mem_cons.mpr (Or.inl hx.symm)) h1
    | cons y a2 =>
      rw [List.cons_append, List.cons_append] at heq
      injection heq with hxy htail
      have h1' : c ∉ a1 := fun hm => h1 (List.mem_cons_of_mem _ hm)
      have h2' : c ∉ a2 := fun hm => h2 (List.mem_cons_of_mem _ hm)
      obtain ⟨ha, hb⟩ := ih a2 b1 b2 h1' h2' htail
      exact ⟨by rw [hxy, ha], hb⟩

theorem generateClientId_inj {r1 n1 r2 n2 : List Char}
    (h1 : '_' ∉ r1) (h2 : '_' ∉ r2)
    (heq : WebSocketServer.generateClientId r1 n1 =
      WebSocketServer.generateClientId r2 n2) : r1 = r2 ∧ n1 = n2 := by
  unfold WebSocketServer.generateClientId at heq
  rw [List.append_assoc, List.append_assoc] at heq
  exact sep_append_inj r1 r2 n1 n2 h1 h2 (List.append_cancel_left heq)

/-- C8 (amended).  The registry, keyed by clientId, never holds two
entries with the same id (handshake, reap and shutdown all preserve
key distinctness), and two handshakes receive distinct clientIds
whenever their underscore-free random or timestamp draws differ; equal
draws yield the same id. -/
theorem clientId_registry_distinct :
    (∀ st qt ah vf rand now, (clientKeys st).Nodup →
      (clientKeys (WebSocketServer.handleUpgrade st qt ah vf rand now).1).Nodup) ∧
    (∀ st cid, (clientKeys st).Nodup →
      (clientKeys (WebSocketServer.cleanupClient st cid)).Nodup) ∧
    (∀ st, (clientKeys (WebSocketServer.cleanup st).1).Nodup) ∧
    (∀ r1 n1 r2 n2, '_' ∉ r1 → '_' ∉ r2 →
      WebSocketServer.generateClientId r1 n1 =
        WebSocketServer.generateClientId r2 n2 → r1 = r2 ∧ n1 = n2) := by
  refine ⟨?_, ?_, fun st => by simp [clientKeys, WebSocketServer.cleanup], ?_⟩
  · intro st qt ah vf rand now h
    unfold WebSocketServer.handleUpgrade
    rcases WebSocketServer.verifyClient qt ah vf with _ | u
    · exact h
    · exact setEntry_keysNodup st.clients _ _ h
  · intro st cid h
    unfold WebSocketServer.cleanupClient clientKeys WebSocketServer.delEntry
    exact ((List.filter_sublist _).map _).nodup h
  · intro r1 n1 r2 n2 h1 h2 heq
    exact generateClientId_inj h1 h2 heq

/-- C8 witness: a handshake against the singleton registry keeps the
registered ids distinct. -/
theorem clientId_registry_distinct_witness :
    (clientKeys (WebSocketServer.handleUpgrade demoState (some (chars "tok"))
      none demoVerify (chars "abcdefghi") (chars "17")).1).Nodup :=
  clientId_registry_distinct.1 demoState (some (chars "tok")) none demoVerify
    (chars "abcdefghi") (chars "17") (by simp [clientKeys, demoState])

/-- C8 counterexample.  Two concurrent handshakes whose `Math.random`
and `Date.now` draws coincide are assigned equal clientIds: after both
admissions the registry key list is the single generated id, refuting
pairwise distinctness of the N assigned ids. -/
theorem clientId_collision_cx :
    clientKeys (WebSocketServer.handleUpgrade
        (WebSocketServer.handleUpgrade ⟨[], []⟩ (some (chars "tok")) none
          demoVerify (chars "abcdefghi") (chars "17")).1
        (some (chars "tok")) none demoVerify (chars "abcdefghi")
        (chars "17")).1 =
      [WebSocketServer.generateClientId (chars "abcdefghi") (chars "17")] := by
  rfl

/-! ## Claim C9: idempotent shutdown -/

/-- C9.  `cleanup` is a total function (it cannot throw): each
invocation closes every still-open transport and clears both maps, and
a second invocation observes an empty registry, performs no closes and
leaves zero connections. -/
theorem cleanup_idempotent (st : WebSocketServer.WSState) :
    ((WebSocketServer.cleanup st).1.clients = [] ∧
     (WebSocketServer.cleanup st).1.sessions = []) ∧
    (∀ cid c, (cid, c) ∈ st.clients → c.wsOpen = true →
      Effect.closeTransport cid ∈ (WebSocketServer.cleanup st).2) ∧
    ((WebSocketServer.cleanup (WebSocketServer.cleanup st).1).1.clients = [] ∧
     (WebSocketServer.cleanup (WebSocketServer.cleanup st).1).1.sessions = []) ∧
    (WebSocketServer.cleanup (WebSocketServer.cleanup st).1).2 = [] := by
  refine ⟨⟨rfl, rfl⟩, ?_, ⟨rfl, rfl⟩, rfl⟩
  intro cid c hmem hopen
  exact List.mem_filterMap.mpr ⟨(cid, c), hmem, by simp [hopen]⟩

/-- C9 witness: the open connection of the demo registry is closed by
the first cleanup. -/
theorem cleanup_idempotent_witness :
    Effect.closeTransport (chars "c1") ∈ (WebSocketServer.cleanup demoState).2 :=
  (cleanup_idempotent demoState).2.1 (chars "c1")
    { user := demoUser, wsOpen := true } (List.mem_singleton.mpr rfl) rfl
